import Mathlib

/-!
Shallow embedding of `go-loggregator`'s `ingress_client.go` (package
`loggregator`): the v2 ingress client.  Producers build envelopes with
`EmitLog` / `EmitGauge` / `EmitCounter` and submit them on the buffered
channel `c.envelopes`; the goroutine `startSender` batches them and sends
batches over a gRPC stream (`emit` / `flush`), lazily (re)establishing the
stream; `CloseSend` closes the channel and waits for the final drain.

Modelling decisions, each noted at its definition:
  * Go `map[string]string` values are modelled as functions
    `String → Option String`; copying one map into another and writing
    single keys become function updates, which is the map's observable
    lookup semantics (Go map iteration order is unspecified, but copying
    distinct keys into an empty map is order independent).
  * The envelope type carried through the dispatcher is a type parameter:
    `startSender` treats `*loggregator_v2.Envelope` as an opaque pointer.
  * The gRPC transport (`c.client.BatchSender`, `sender.Send`,
    `sender.CloseSend`) is an oracle `Network` giving the boolean outcome
    of each successive call; the dispatcher state records ghost logs of
    the calls made, in order, and of the errors handed to the logger.
  * `time.Timer` is modelled by an absolute deadline.  After
    `t.Reset(d)` at time `now` the deadline is `now + d`; a fire event on
    `t.C` can be consumed at any time `t ≥ deadline`.  The
    `Stop`/drain/`Reset` sequence in the size-triggered branch and the
    `Reset` in the timer branch both amount to `deadline := now + d`
    (in this loop every consumption of `t.C` is immediately followed by a
    `Reset`, so the drain never blocks and no stale fire survives a
    reset); this is exactly the discipline lines 331-334 implement.
  * The v1 `EnvelopeWrapper` branches of the option closures are dead
    code for the three v2 emitters modelled here (they always build a
    `*loggregator_v2.Envelope`), so only the `Envelope` branches are
    embedded.
-/

/-- Go `map[string]string`, by its lookup semantics. -/
def TagMap : Type := String → Option String

/-- The empty Go map (`make(map[string]string)`). -/
def TagMap.empty : TagMap := fun _ => none

/-- Go `m[k] = v` on a string map. -/
def TagMap.insert (m : TagMap) (k v : String) : TagMap :=
  fun k' => if k' = k then some v else m k'

/-- A sequence of Go map writes `m[k] = v`, performed left to right. -/
def TagMap.insertMany (m : TagMap) (l : List (String × String)) : TagMap :=
  l.foldl (fun m p => m.insert p.1 p.2) m

/-- `loggregator_v2.Log` message types (`Log_OUT`, `Log_ERR`). -/
inductive LogType
  | out
  | err
deriving DecidableEq, Repr

/-- `loggregator_v2.GaugeValue`. -/
structure GaugeValue where
  value : Float
  unit : String

/-- The `Message` oneof of a `loggregator_v2.Envelope`, restricted to the
three variants the client constructs (`Log`, `Gauge`, `Counter`); a
counter's value is the `Counter_Delta` variant, a `uint64` delta. -/
inductive EnvMessage
  | log (payload : String) (typ : LogType)
  | gauge (metrics : String → Option GaugeValue)
  | counter (name : String) (delta : Nat)

/-- A `loggregator_v2.Envelope`, with the fields the client touches. -/
structure Envelope where
  timestamp : Int
  sourceId : String
  instanceId : String
  message : EnvMessage
  tags : TagMap

/-- The delta of a counter envelope, `none` for the other variants. -/
def Envelope.counterDelta (e : Envelope) : Option Nat :=
  match e.message with
  | .counter _ d => some d
  | _ => none

/-- `EmitLogOption`: the closures the source offers for `EmitLog`
(`WithAppInfo`, `WithStdout`, `WithEnvelopeTag`, `WithEnvelopeTags`). -/
inductive EmitLogOption
  | withAppInfo (appID sourceType sourceInstance : String)
  | withStdout
  | withEnvelopeTag (name value : String)
  | withEnvelopeTags (tags : List (String × String))

/-- The `*loggregator_v2.Envelope` branch of each `EmitLogOption`. -/
def applyEmitLogOption (e : Envelope) (o : EmitLogOption) : Envelope :=
  match o with
  | .withAppInfo appID sourceType sourceInstance =>
      { e with sourceId := appID, instanceId := sourceInstance,
               tags := e.tags.insert "source_type" sourceType }
  | .withStdout =>
      { e with message :=
          match e.message with
          | .log payload _ => .log payload .out
          | m => m }
  | .withEnvelopeTag name value => { e with tags := e.tags.insert name value }
  | .withEnvelopeTags tags => { e with tags := e.tags.insertMany tags }

/-- `EmitGaugeOption`: `WithGaugeAppInfo`, `WithGaugeValue`,
`WithEnvelopeTag`, `WithEnvelopeTags`. -/
inductive EmitGaugeOption
  | withGaugeAppInfo (appID : String)
  | withGaugeValue (name : String) (value : Float) (unit : String)
  | withEnvelopeTag (name value : String)
  | withEnvelopeTags (tags : List (String × String))

/-- The `*loggregator_v2.Envelope` branch of each `EmitGaugeOption`. -/
def applyEmitGaugeOption (e : Envelope) (o : EmitGaugeOption) : Envelope :=
  match o with
  | .withGaugeAppInfo appID => { e with sourceId := appID }
  | .withGaugeValue name value unit =>
      { e with message :=
          match e.message with
          | .gauge metrics =>
              .gauge (fun n => if n = name then some ⟨value, unit⟩ else metrics n)
          | m => m }
  | .withEnvelopeTag name value => { e with tags := e.tags.insert name value }
  | .withEnvelopeTags tags => { e with tags := e.tags.insertMany tags }

/-- `EmitCounterOption`: `WithDelta`, `WithEnvelopeTag`,
`WithEnvelopeTags`. -/
inductive EmitCounterOption
  | withDelta (d : Nat)
  | withEnvelopeTag (name value : String)
  | withEnvelopeTags (tags : List (String × String))

/-- The `*loggregator_v2.Envelope` branch of each `EmitCounterOption`. -/
def applyEmitCounterOption (e : Envelope) (o : EmitCounterOption) : Envelope :=
  match o with
  | .withDelta d =>
      { e with message :=
          match e.message with
          | .counter name _ => .counter name d
          | m => m }
  | .withEnvelopeTag name value => { e with tags := e.tags.insert name value }
  | .withEnvelopeTags tags => { e with tags := e.tags.insertMany tags }

/-- The envelope `EmitLog` builds and submits: `Log_ERR` payload, the
client's static tags copied in (`for k, v := range c.tags`), then the
per-call options applied in order.  `now` stands for
`time.Now().UnixNano()`. -/
def emitLogEnvelope (staticTags : TagMap) (now : Int) (message : String)
    (opts : List EmitLogOption) : Envelope :=
  let e : Envelope :=
    { timestamp := now, sourceId := "", instanceId := "",
      message := .log message .err, tags := staticTags }
  opts.foldl applyEmitLogOption e

/-- The envelope `EmitGauge` builds and submits: an empty gauge, the
static tags, then the per-call options in order. -/
def emitGaugeEnvelope (staticTags : TagMap) (now : Int)
    (opts : List EmitGaugeOption) : Envelope :=
  let e : Envelope :=
    { timestamp := now, sourceId := "", instanceId := "",
      message := .gauge (fun _ => none), tags := staticTags }
  opts.foldl applyEmitGaugeOption e

/-- The envelope `EmitCounter` builds and submits: a counter with a
`Counter_Delta` of `uint64(1)`, the static tags, then the per-call
options in order. -/
def emitCounterEnvelope (staticTags : TagMap) (now : Int) (name : String)
    (opts : List EmitCounterOption) : Envelope :=
  let e : Envelope :=
    { timestamp := now, sourceId := "", instanceId := "",
      message := .counter name 1, tags := staticTags }
  opts.foldl applyEmitCounterOption e

/-- The tag writes an `EmitLogOption` performs on the envelope's tag map
(used to state the static/per-call merge property). -/
def EmitLogOption.tagWrites : EmitLogOption → List (String × String)
  | .withAppInfo _ sourceType _ => [("source_type", sourceType)]
  | .withStdout => []
  | .withEnvelopeTag name value => [(name, value)]
  | .withEnvelopeTags tags => tags

/-- The tag writes an `EmitGaugeOption` performs. -/
def EmitGaugeOption.tagWrites : EmitGaugeOption → List (String × String)
  | .withGaugeAppInfo _ => []
  | .withGaugeValue _ _ _ => []
  | .withEnvelopeTag name value => [(name, value)]
  | .withEnvelopeTags tags => tags

/-- The tag writes an `EmitCounterOption` performs. -/
def EmitCounterOption.tagWrites : EmitCounterOption → List (String × String)
  | .withDelta _ => []
  | .withEnvelopeTag name value => [(name, value)]
  | .withEnvelopeTags tags => tags

/-- The tag map a list of per-call options describes on its own: its
writes applied to an empty map. -/
def perCallTags (writes : List (String × String)) : TagMap :=
  TagMap.empty.insertMany writes

/-- `time.Second` in nanoseconds (`time.Duration` counts nanoseconds). -/
def goSecond : Nat := 1000000000

/-- The client fields set by `NewIngressClient` and its options.
`envelopesCap` is the buffer capacity of the `envelopes` channel;
`logger` is an opaque handle, `none` standing for the default
`log.New(ioutil.Discard, "", 0)`. -/
structure ClientState where
  envelopesCap : Nat
  tags : TagMap
  batchMaxSize : Nat
  batchFlushInterval : Nat
  addr : String
  logger : Option String

/-- `IngressOption`: the five option constructors of the source
(`WithTag`, `WithBatchMaxSize`, `WithBatchFlushInterval`, `WithAddr`,
`WithLogger`). -/
inductive IngressOption
  | withTag (name value : String)
  | withBatchMaxSize (maxSize : Nat)
  | withBatchFlushInterval (d : Nat)
  | withAddr (addr : String)
  | withLogger (l : String)

/-- What each `IngressOption` closure does to the client. -/
def applyIngressOption (c : ClientState) (o : IngressOption) : ClientState :=
  match o with
  | .withTag name value => { c with tags := c.tags.insert name value }
  | .withBatchMaxSize maxSize => { c with batchMaxSize := maxSize }
  | .withBatchFlushInterval d => { c with batchFlushInterval := d }
  | .withAddr addr => { c with addr := addr }
  | .withLogger l => { c with logger := some l }

/-- `NewIngressClient`'s construction of the client record: the defaults
(`make(chan *loggregator_v2.Envelope, 100)`, batch size 100, flush
interval `time.Second`, address `localhost:3458`, discard logger), then
the options applied in order. -/
def newIngressClient (opts : List IngressOption) : ClientState :=
  opts.foldl applyIngressOption
    { envelopesCap := 100, tags := TagMap.empty, batchMaxSize := 100,
      batchFlushInterval := goSecond, addr := "localhost:3458",
      logger := none }

/-- A buffered Go channel, as used for `c.envelopes`. -/
structure GoChan (α : Type) where
  cap : Nat
  buf : List α
  isClosed : Bool
deriving DecidableEq

/-- Outcome of a Go channel send `ch <- x`. -/
inductive ChanSendResult (α : Type)
  | ok (ch : GoChan α)
  | blocked
  | panicked
deriving DecidableEq

/-- Go semantics of `ch <- x` on a buffered channel (no waiting
receiver): a send on a closed channel panics; a send on a full channel
blocks the sender until space is available, the value stays with the
sender and is not dropped; otherwise the value is appended to the
buffer. -/
def GoChan.send {α : Type} (ch : GoChan α) (x : α) : ChanSendResult α :=
  if ch.isClosed then .panicked
  else if ch.buf.length < ch.cap then .ok { ch with buf := ch.buf ++ [x] }
  else .blocked

/-- Go semantics of `close(ch)`: closing a closed channel panics
(`none`); otherwise the channel is marked closed. -/
def GoChan.closeChan {α : Type} (ch : GoChan α) : Option (GoChan α) :=
  if ch.isClosed then none else some { ch with isClosed := true }

/-- The `envelopes` channel as `NewIngressClient` makes it:
`make(chan *loggregator_v2.Envelope, 100)`. -/
def newEnvelopesChan (α : Type) : GoChan α :=
  { cap := 100, buf := [], isClosed := false }

/-- The error values `emit` can produce, by failing call. -/
inductive FlushErr
  | estErr
  | sendErr
  | closeErr
deriving DecidableEq, Repr

/-- Ghost record of one transport call made by `emit`: a
`c.client.BatchSender` establishment, a `sender.Send` of a batch, or a
`sender.CloseSend`, each with the outcome the oracle returned. -/
inductive TransportCall (α : Type)
  | est (ok : Bool)
  | send (batch : List α) (ok : Bool)
  | closeSend (ok : Bool)
deriving DecidableEq

/-- Oracle for the gRPC transport: the outcome of the i-th
`BatchSender`, `Send` and `CloseSend` call respectively. -/
structure Network where
  estOk : Nat → Bool
  sendOk : Nat → Bool
  closeOk : Nat → Bool

/-- The failure-free transport. -/
def Network.allOk : Network :=
  { estOk := fun _ => true, sendOk := fun _ => true, closeOk := fun _ => true }

/-- State of the dispatcher goroutine `startSender`, over an opaque
envelope type `α`: the local `batch` slice, the `c.sender` handle
(`none` iff `c.sender == nil`), the timer's absolute `deadline`, and
ghost data: counters indexing the oracle, the log of transport calls
made, and the errors handed to `c.logger.Printf` by `flush`. -/
structure DState (α : Type) where
  batch : List α
  sender : Option Unit
  deadline : Nat
  estCount : Nat
  sendCount : Nat
  closeCount : Nat
  calls : List (TransportCall α)
  logged : List FlushErr
deriving DecidableEq

/-- The tail of `emit` from the `c.sender.Send` call on: on send failure
set `c.sender = nil` and return the error; on success, if `close`, call
`CloseSend` and return its outcome, else return nil. -/
def emitSend {α : Type} (net : Network) (s : DState α) (batch : List α)
    (close : Bool) : DState α × Option FlushErr :=
  let ok := net.sendOk s.sendCount
  let s := { s with
    sendCount := s.sendCount + 1
    calls := s.calls ++ [.send batch ok]
    sender := if ok then s.sender else none }
  if ok then
    if close then
      let cok := net.closeOk s.closeCount
      let s := { s with
        closeCount := s.closeCount + 1
        calls := s.calls ++ [.closeSend cok] }
      (s, if cok then none else some .closeErr)
    else (s, none)
  else (s, some .sendErr)

/-- `emit`: if `c.sender == nil`, first call `c.client.BatchSender`; on
establishment failure return that error (the handle stays nil), else
proceed to the send. -/
def emit {α : Type} (net : Network) (s : DState α) (batch : List α)
    (close : Bool) : DState α × Option FlushErr :=
  match s.sender with
  | some _ => emitSend net s batch close
  | none =>
    let ok := net.estOk s.estCount
    let s := { s with
      estCount := s.estCount + 1
      calls := s.calls ++ [.est ok]
      sender := if ok then some () else none }
    if ok then emitSend net s batch close else (s, some .estErr)

/-- `flush`: call `emit`; a non-nil error is passed to
`c.logger.Printf` (recorded in the ghost `logged` list); the error is
returned either way. -/
def flush {α : Type} (net : Network) (s : DState α) (batch : List α)
    (close : Bool) : DState α × Option FlushErr :=
  let r := emit net s batch close
  match r.2 with
  | some e => ({ r.1 with logged := r.1.logged ++ [e] }, some e)
  | none => r

/-- Go's `int(u)` on a `uint` (64-bit on the platforms this client
targets): reduce modulo 2^64 and reinterpret the bit pattern as a
two's-complement signed integer, so values of 2^63 and above come out
negative. -/
def goIntOfUint (n : Nat) : Int :=
  if n % 2 ^ 64 < 2 ^ 63 then ((n % 2 ^ 64 : Nat) : Int)
  else ((n % 2 ^ 64 : Nat) : Int) - 2 ^ 64

/-- The `env := <-c.envelopes` branch of `startSender`'s select for a
non-nil envelope at time `now`: append to the batch; if
`len(batch) >= int(c.batchMaxSize)`, flush (error ignored), clear the
batch, and `Stop`/drain/`Reset` the timer — i.e. the next fire is at
`now + c.batchFlushInterval` and any stale fire is gone.  The guard is
the source's signed comparison: `c.batchMaxSize` is a `uint` and goes
through `int(...)`, wrapping to a negative threshold for values of
2^63 and above; `len(batch)` is a Go `int`, nonnegative and below 2^63
in any execution, so its cast is direct. -/
def stepRecv {α : Type} (c : ClientState) (net : Network) (s : DState α)
    (e : α) (now : Nat) : DState α :=
  let s := { s with batch := s.batch ++ [e] }
  if goIntOfUint c.batchMaxSize ≤ (s.batch.length : Int) then
    let s := (flush net s s.batch false).1
    { s with batch := [], deadline := now + c.batchFlushInterval }
  else s

/-- The `<-t.C` branch of `startSender`'s select at time `now`: flush if
the batch is non-empty (error ignored), clear it, and `Reset` the timer
to a full interval from `now`. -/
def stepTimer {α : Type} (c : ClientState) (net : Network) (s : DState α)
    (now : Nat) : DState α :=
  let s :=
    if 0 < s.batch.length then
      let s := (flush net s s.batch false).1
      { s with batch := [] }
    else s
  { s with deadline := now + c.batchFlushInterval }

/-- The `env == nil` branch (the `envelopes` channel was closed and
drained): one final `c.flush(batch, true)` whose outcome is sent on
`c.closeErrors`, then the goroutine returns. -/
def stepClosed {α : Type} (net : Network) (s : DState α) :
    DState α × Option FlushErr :=
  flush net s s.batch true

/-- One observable event of the dispatcher loop: the select consumes a
non-nil envelope, a timer fire from `t.C`, or the nil that a
closed-and-drained channel yields. -/
inductive SenderEvent (α : Type)
  | recv (e : α)
  | timerFire
  | closedChan
deriving DecidableEq

/-- The dispatcher loop over a schedule of timed events.  It returns
`Sum.inl` with the loop still running (no value was ever returned to
anyone), or `Sum.inr` with the final state and the error value sent on
`c.closeErrors` once the end-of-stream marker arrives; that is the only
way the loop terminates. -/
def runSender {α : Type} (c : ClientState) (net : Network) :
    DState α → List (SenderEvent α × Nat) →
    Sum (DState α) (DState α × Option FlushErr)
  | s, [] => .inl s
  | s, (ev, now) :: rest =>
    match ev with
    | .recv e => runSender c net (stepRecv c net s e now) rest
    | .timerFire => runSender c net (stepTimer c net s now) rest
    | .closedChan => .inr (stepClosed net s)

/-- Validity of a timed schedule from state `s`, last observed time
`tmin`: times are non-decreasing, and a fire of `t.C` can only be
consumed at or after the timer's current deadline (the model's
rendering of "the timer has fired and the event has not been drained"
— every consumption or drain is immediately followed by a `Reset`
in this loop). -/
def validEvents {α : Type} (c : ClientState) (net : Network) :
    DState α → Nat → List (SenderEvent α × Nat) → Bool
  | _, _, [] => true
  | s, tmin, (ev, now) :: rest =>
    decide (tmin ≤ now) &&
    match ev with
    | .recv e => validEvents c net (stepRecv c net s e now) now rest
    | .timerFire =>
        decide (s.deadline ≤ now) &&
        validEvents c net (stepTimer c net s now) now rest
    | .closedChan => true

/-- `startSender`'s state as the goroutine starts, with the client
constructed at time 0: empty batch, nil sender, timer due one full
interval after construction. -/
def initDState (α : Type) (c : ClientState) : DState α :=
  { batch := [], sender := none, deadline := c.batchFlushInterval,
    estCount := 0, sendCount := 0, closeCount := 0, calls := [],
    logged := [] }

/-- The envelopes a schedule delivers to the loop before the
end-of-stream marker, in delivery order: the records accepted into the
queue, in acceptance order. -/
def recvsOf {α : Type} : List (SenderEvent α × Nat) → List α
  | [] => []
  | (.recv e, _) :: rest => e :: recvsOf rest
  | (.timerFire, _) :: rest => recvsOf rest
  | (.closedChan, _) :: _ => []

/-- The batch argument of a `Send` transport call. -/
def sendCallBatch {α : Type} : TransportCall α → Option (List α)
  | .send b _ => some b
  | _ => none

/-- The batches handed to `sender.Send`, in call order. -/
def sentBatches {α : Type} (s : DState α) : List (List α) :=
  s.calls.filterMap sendCallBatch

/-- Whether a schedule contains the end-of-stream marker. -/
def hasClosedEvent {α : Type} : List (SenderEvent α × Nat) → Bool
  | [] => false
  | (.closedChan, _) :: _ => true
  | _ :: rest => hasClosedEvent rest

/-- Whether a schedule consists of envelope deliveries only. -/
def allRecvEvents {α : Type} : List (SenderEvent α × Nat) → Bool
  | [] => true
  | (.recv _, _) :: rest => allRecvEvents rest
  | _ => false

/-- The spec's tag merge: the per-call map laid over the base map, the
per-call value winning on a key collision.  Used to state that the
code's construction (copy static tags, then run the option closures)
realises exactly this merge. -/
def TagMap.merge (base over : TagMap) : TagMap :=
  fun k =>
    match over k with
    | some v => some v
    | none => base k

/-- Whether an `EmitCounterOption` is a `WithDelta`. -/
def EmitCounterOption.isDelta : EmitCounterOption → Bool
  | .withDelta _ => true
  | _ => false

/-- The tag writes a whole option list performs, in order. -/
def logOptsTagWrites (opts : List EmitLogOption) : List (String × String) :=
  (opts.map EmitLogOption.tagWrites).flatten

/-- The tag writes a whole gauge option list performs, in order. -/
def gaugeOptsTagWrites (opts : List EmitGaugeOption) : List (String × String) :=
  (opts.map EmitGaugeOption.tagWrites).flatten

/-- The tag writes a whole counter option list performs, in order. -/
def counterOptsTagWrites (opts : List EmitCounterOption) : List (String × String) :=
  (opts.map EmitCounterOption.tagWrites).flatten

/-- `EmitLog` as the producer sees it: build the envelope, then
`c.envelopes <- e`. -/
def clientEmitLog (c : ClientState) (ch : GoChan Envelope) (now : Int)
    (message : String) (opts : List EmitLogOption) : ChanSendResult Envelope :=
  ch.send (emitLogEnvelope c.tags now message opts)

/-- `EmitGauge` as the producer sees it. -/
def clientEmitGauge (c : ClientState) (ch : GoChan Envelope) (now : Int)
    (opts : List EmitGaugeOption) : ChanSendResult Envelope :=
  ch.send (emitGaugeEnvelope c.tags now opts)

/-- `EmitCounter` as the producer sees it. -/
def clientEmitCounter (c : ClientState) (ch : GoChan Envelope) (now : Int)
    (name : String) (opts : List EmitCounterOption) : ChanSendResult Envelope :=
  ch.send (emitCounterEnvelope c.tags now name opts)

/-- The channel half of `CloseSend`: `close(c.envelopes)`; `none` means
the close panicked (channel already closed).  The blocking half,
`return <-c.closeErrors`, receives the value `stepClosed` produces. -/
def clientCloseSendChan (ch : GoChan Envelope) : Option (GoChan Envelope) :=
  ch.closeChan

/-- The value `CloseSend` returns once the dispatcher has drained: the
outcome of the final `c.flush(batch, true)`, received from
`c.closeErrors`. -/
def closeSendOutcome {α : Type} (net : Network) (s : DState α) :
    Option FlushErr :=
  (stepClosed net s).2

/-- The capacity of the `envelopes` channel counts as configurable if
some option list can make `NewIngressClient` produce a capacity other
than the hard-coded 100. -/
def envelopesCapConfigurable : Prop :=
  ∃ opts : List IngressOption, (newIngressClient opts).envelopesCap ≠ 100

/-- A small concrete client for witnesses: batch max 3, flush interval
10. -/
def cfgW : ClientState :=
  newIngressClient
    [IngressOption.withBatchMaxSize 3, IngressOption.withBatchFlushInterval 10]

/-- The records the dispatcher still accounts for in a loop result: the
concatenation of all batches handed to `Send`, followed by the pending
buffer when the loop is still running. -/
def sentPlusPending {α : Type} :
    Sum (DState α) (DState α × Option FlushErr) → List α
  | .inl s => (sentBatches s).flatten ++ s.batch
  | .inr (s, _) => (sentBatches s).flatten

/-- The dispatcher state inside a loop result. -/
def senderFinalState {α : Type} :
    Sum (DState α) (DState α × Option FlushErr) → DState α
  | .inl s => s
  | .inr (s, _) => s

/-- A transport whose stream close fails while establishment and sends
succeed. -/
def netCloseFail : Network :=
  { estOk := fun _ => true, sendOk := fun _ => true,
    closeOk := fun _ => false }

/-- A transport whose sends fail while establishment succeeds. -/
def netSendFail : Network :=
  { estOk := fun _ => true, sendOk := fun _ => false,
    closeOk := fun _ => true }

/-- A concrete schedule for witnesses: five records then the
end-of-stream marker. -/
def evsW : List (SenderEvent Nat × Nat) :=
  [(.recv 1, 1), (.recv 2, 2), (.recv 3, 3), (.recv 4, 4), (.recv 5, 5),
   (.closedChan, 6)]

theorem foldl_ingressOption_cap (opts : List IngressOption) (c : ClientState) :
    (opts.foldl applyIngressOption c).envelopesCap = c.envelopesCap := by
  induction opts generalizing c with
  | nil => rfl
  | cons o rest ih => cases o <;> simp [List.foldl_cons, applyIngressOption, ih]

/-- Claim C8, counterexample: the capacity of the record queue is not
configurable — no option list makes `NewIngressClient` produce an
`envelopes` channel capacity other than the hard-coded 100 (the
capacity is a literal in the constructor, set before the options run,
and no option touches it). -/
theorem envelopesCap_not_configurable : ¬ envelopesCapConfigurable := by
  rintro ⟨opts, h⟩
  exact h (by simpa [newIngressClient] using foldl_ingressOption_cap opts _)

/-- Claim C8 (amended): the record queue has a fixed, non-configurable
capacity of 100 in-flight records — `NewIngressClient` always creates
the `envelopes` channel with capacity 100 whatever options are passed —
and a send on a full open channel blocks the producer until space is
available rather than dropping the record. -/
theorem queue_capacity_fixed_and_blocking {α : Type} :
    (∀ opts : List IngressOption, (newIngressClient opts).envelopesCap = 100) ∧
    (newEnvelopesChan α).cap = 100 ∧
    (∀ (ch : GoChan α) (x : α), ch.isClosed = false → ch.cap ≤ ch.buf.length →
      ch.send x = ChanSendResult.blocked) := by
  refine ⟨fun opts => ?_, rfl, fun ch x hopen hfull => ?_⟩
  · simpa [newIngressClient] using foldl_ingressOption_cap opts _
  · simp [GoChan.send, hopen, Nat.not_lt.mpr hfull]

/-- Witness for C8's amended theorem: a full open channel of capacity 2
blocks a third send. -/
theorem queue_capacity_fixed_and_blocking_witness :
    GoChan.send { cap := 2, buf := [1, 2], isClosed := false } (3 : Nat) =
      ChanSendResult.blocked :=
  queue_capacity_fixed_and_blocking.2.2 _ 3 rfl (by decide)

/-- Claim C10: once the `envelopes` channel is closed by the first
`CloseSend`, every subsequent `EmitLog` / `EmitGauge` / `EmitCounter`
panics (send on a closed channel) rather than dropping the record or
returning an error, and a second `CloseSend` panics (close of a closed
channel); moreover a successful `CloseSend` leaves the channel
closed. -/
theorem emit_after_close_panics :
    (∀ (c : ClientState) (ch : GoChan Envelope) (now : Int) (msg : String)
        (opts : List EmitLogOption), ch.isClosed = true →
        clientEmitLog c ch now msg opts = ChanSendResult.panicked) ∧
    (∀ (c : ClientState) (ch : GoChan Envelope) (now : Int)
        (opts : List EmitGaugeOption), ch.isClosed = true →
        clientEmitGauge c ch now opts = ChanSendResult.panicked) ∧
    (∀ (c : ClientState) (ch : GoChan Envelope) (now : Int) (name : String)
        (opts : List EmitCounterOption), ch.isClosed = true →
        clientEmitCounter c ch now name opts = ChanSendResult.panicked) ∧
    (∀ ch : GoChan Envelope, ch.isClosed = true →
        clientCloseSendChan ch = none) ∧
    (∀ ch ch' : GoChan Envelope, clientCloseSendChan ch = some ch' →
        ch'.isClosed = true) := by
  refine ⟨fun c ch now msg opts h => ?_, fun c ch now opts h => ?_,
          fun c ch now name opts h => ?_, fun ch h => ?_, fun ch ch' h => ?_⟩
  · simp [clientEmitLog, GoChan.send, h]
  · simp [clientEmitGauge, GoChan.send, h]
  · simp [clientEmitCounter, GoChan.send, h]
  · simp [clientCloseSendChan, GoChan.closeChan, h]
  · unfold clientCloseSendChan GoChan.closeChan at h
    split at h
    · exact absurd h (by simp)
    · cases h
      rfl

/-- Witness for C10: on a concretely closed channel, an `EmitLog`
panics and a second channel close panics. -/
theorem emit_after_close_panics_witness :
    clientEmitLog (newIngressClient []) { cap := 100, buf := [], isClosed := true }
        0 "m" [] = ChanSendResult.panicked ∧
    clientCloseSendChan { cap := 100, buf := [], isClosed := true } = none :=
  ⟨emit_after_close_panics.1 _ _ 0 "m" [] rfl,
   emit_after_close_panics.2.2.2.1 _ rfl⟩

theorem applyEmitLogOption_tags (e : Envelope) (o : EmitLogOption) :
    (applyEmitLogOption e o).tags = e.tags.insertMany o.tagWrites := by
  cases o <;> rfl

theorem applyEmitGaugeOption_tags (e : Envelope) (o : EmitGaugeOption) :
    (applyEmitGaugeOption e o).tags = e.tags.insertMany o.tagWrites := by
  cases o <;> rfl

theorem applyEmitCounterOption_tags (e : Envelope) (o : EmitCounterOption) :
    (applyEmitCounterOption e o).tags = e.tags.insertMany o.tagWrites := by
  cases o <;> rfl

theorem insertMany_append (m : TagMap) (l₁ l₂ : List (String × String)) :
    m.insertMany (l₁ ++ l₂) = (m.insertMany l₁).insertMany l₂ := by
  simp [TagMap.insertMany, List.foldl_append]

theorem foldl_emitLogOption_tags (opts : List EmitLogOption) (e : Envelope) :
    (opts.foldl applyEmitLogOption e).tags =
      e.tags.insertMany (logOptsTagWrites opts) := by
  induction opts generalizing e with
  | nil => rfl
  | cons o rest ih =>
      rw [List.foldl_cons, ih, applyEmitLogOption_tags]
      have h : logOptsTagWrites (o :: rest) =
          o.tagWrites ++ logOptsTagWrites rest := by
        simp [logOptsTagWrites]
      rw [h, insertMany_append]

theorem foldl_emitGaugeOption_tags (opts : List EmitGaugeOption) (e : Envelope) :
    (opts.foldl applyEmitGaugeOption e).tags =
      e.tags.insertMany (gaugeOptsTagWrites opts) := by
  induction opts generalizing e with
  | nil => rfl
  | cons o rest ih =>
      rw [List.foldl_cons, ih, applyEmitGaugeOption_tags]
      have h : gaugeOptsTagWrites (o :: rest) =
          o.tagWrites ++ gaugeOptsTagWrites rest := by
        simp [gaugeOptsTagWrites]
      rw [h, insertMany_append]

theorem foldl_emitCounterOption_tags (opts : List EmitCounterOption) (e : Envelope) :
    (opts.foldl applyEmitCounterOption e).tags =
      e.tags.insertMany (counterOptsTagWrites opts) := by
  induction opts generalizing e with
  | nil => rfl
  | cons o rest ih =>
      rw [List.foldl_cons, ih, applyEmitCounterOption_tags]
      have h : counterOptsTagWrites (o :: rest) =
          o.tagWrites ++ counterOptsTagWrites rest := by
        simp [counterOptsTagWrites]
      rw [h, insertMany_append]

theorem insertMany_eq_merge (l : List (String × String)) (m : TagMap) (k : String) :
    m.insertMany l k = TagMap.merge m (perCallTags l) k := by
  induction l generalizing m with
  | nil => simp [TagMap.insertMany, TagMap.merge, perCallTags, TagMap.empty]
  | cons p rest ih =>
      have hl : TagMap.insertMany m (p :: rest) k =
          TagMap.insertMany (m.insert p.1 p.2) rest k := rfl
      have hr : perCallTags (p :: rest) k =
          TagMap.merge (TagMap.empty.insert p.1 p.2) (perCallTags rest) k := by
        have h0 : perCallTags (p :: rest) k =
            TagMap.insertMany (TagMap.empty.insert p.1 p.2) rest k := rfl
        rw [h0, ih]
      rw [hl, ih]
      simp only [TagMap.merge]
      rw [hr]
      simp only [TagMap.merge]
      cases h : perCallTags rest k <;>
        by_cases hk : k = p.1 <;>
          simp [TagMap.insert, TagMap.empty, h, hk]

theorem foldl_counterOption_message (opts : List EmitCounterOption)
    (e : Envelope) (name : String) (d : Nat)
    (h : ∀ o ∈ opts, o.isDelta = false)
    (he : e.message = EnvMessage.counter name d) :
    (opts.foldl applyEmitCounterOption e).message =
      EnvMessage.counter name d := by
  induction opts generalizing e with
  | nil => exact he
  | cons o rest ih =>
      have ho := h o (by simp)
      have hrest : ∀ o ∈ rest, o.isDelta = false :=
        fun o hm => h o (by simp [hm])
      rw [List.foldl_cons]
      refine ih _ hrest ?_
      cases o with
      | withDelta d' => simp [EmitCounterOption.isDelta] at ho
      | withEnvelopeTag n v => simpa [applyEmitCounterOption] using he
      | withEnvelopeTags ts => simpa [applyEmitCounterOption] using he

/-- Claim C9: for every record built by `EmitLog`, `EmitGauge` or
`EmitCounter`, the record's tag map is the client-wide static tag set
with the per-call options' tag writes laid over it (per-call value wins
on a key collision dynamic), and a counter emitted without a
`WithDelta` option carries a delta of exactly 1. -/
theorem emit_tags_merge_and_default_delta :
    (∀ (staticTags : TagMap) (now : Int) (msg : String)
        (opts : List EmitLogOption) (k : String),
      (emitLogEnvelope staticTags now msg opts).tags k =
        TagMap.merge staticTags (perCallTags (logOptsTagWrites opts)) k) ∧
    (∀ (staticTags : TagMap) (now : Int)
        (opts : List EmitGaugeOption) (k : String),
      (emitGaugeEnvelope staticTags now opts).tags k =
        TagMap.merge staticTags (perCallTags (gaugeOptsTagWrites opts)) k) ∧
    (∀ (staticTags : TagMap) (now : Int) (name : String)
        (opts : List EmitCounterOption) (k : String),
      (emitCounterEnvelope staticTags now name opts).tags k =
        TagMap.merge staticTags (perCallTags (counterOptsTagWrites opts)) k) ∧
    (∀ (staticTags : TagMap) (now : Int) (name : String)
        (opts : List EmitCounterOption),
      (∀ o ∈ opts, o.isDelta = false) →
      (emitCounterEnvelope staticTags now name opts).counterDelta = some 1) := by
  refine ⟨fun staticTags now msg opts k => ?_,
          fun staticTags now opts k => ?_,
          fun staticTags now name opts k => ?_,
          fun staticTags now name opts h => ?_⟩
  · rw [emitLogEnvelope, foldl_emitLogOption_tags, insertMany_eq_merge]
  · rw [emitGaugeEnvelope, foldl_emitGaugeOption_tags, insertMany_eq_merge]
  · rw [emitCounterEnvelope, foldl_emitCounterOption_tags, insertMany_eq_merge]
  · rw [Envelope.counterDelta, emitCounterEnvelope,
        foldl_counterOption_message opts _ name 1 h rfl]

/-- Witness for C9: with a static tag `a = s`, a per-call
`WithEnvelopeTag a p` overrides it on the emitted counter, and a
counter emitted with no `WithDelta` option carries delta 1. -/
theorem emit_tags_merge_and_default_delta_witness :
    (∀ o ∈ [EmitCounterOption.withEnvelopeTag "a" "p"],
        EmitCounterOption.isDelta o = false) ∧
    (emitCounterEnvelope (TagMap.empty.insert "a" "s") 0 "hits"
        [EmitCounterOption.withEnvelopeTag "a" "p"]).tags "a" =
      TagMap.merge (TagMap.empty.insert "a" "s")
        (perCallTags (counterOptsTagWrites
          [EmitCounterOption.withEnvelopeTag "a" "p"])) "a" ∧
    (emitCounterEnvelope (TagMap.empty.insert "a" "s") 0 "hits"
        [EmitCounterOption.withEnvelopeTag "a" "p"]).counterDelta = some 1 :=
  ⟨by decide,
   emit_tags_merge_and_default_delta.2.2.1 _ 0 "hits" _ "a",
   emit_tags_merge_and_default_delta.2.2.2 _ 0 "hits" _ (by decide)⟩

theorem emitSend_sendFail {α : Type} (net : Network) (s : DState α)
    (b : List α) (cl : Bool) (h : net.sendOk s.sendCount = false) :
    emitSend net s b cl =
      ({ s with
          sendCount := s.sendCount + 1
          calls := s.calls ++ [TransportCall.send b false]
          sender := none }, some FlushErr.sendErr) := by
  simp [emitSend, h]

theorem emitSend_sendOk_noClose {α : Type} (net : Network) (s : DState α)
    (b : List α) (h : net.sendOk s.sendCount = true) :
    emitSend net s b false =
      ({ s with
          sendCount := s.sendCount + 1
          calls := s.calls ++ [TransportCall.send b true] }, none) := by
  simp [emitSend, h]

theorem emitSend_sendOk_close {α : Type} (net : Network) (s : DState α)
    (b : List α) (h : net.sendOk s.sendCount = true) :
    emitSend net s b true =
      ({ s with
          sendCount := s.sendCount + 1
          closeCount := s.closeCount + 1
          calls := s.calls ++ [TransportCall.send b true,
                               TransportCall.closeSend (net.closeOk s.closeCount)] },
       if net.closeOk s.closeCount then none else some FlushErr.closeErr) := by
  by_cases hc : net.closeOk s.closeCount <;> simp [emitSend, h, hc]

theorem emit_sender_some {α : Type} (net : Network) (s : DState α)
    (b : List α) (cl : Bool) (hs : s.sender = some ()) :
    emit net s b cl = emitSend net s b cl := by
  unfold emit
  rw [hs]

theorem emit_sender_none_estFail {α : Type} (net : Network) (s : DState α)
    (b : List α) (cl : Bool) (hs : s.sender = none)
    (he : net.estOk s.estCount = false) :
    emit net s b cl =
      ({ s with
          estCount := s.estCount + 1
          calls := s.calls ++ [TransportCall.est false] },
       some FlushErr.estErr) := by
  unfold emit
  rw [hs]
  simp [he, hs]

theorem emit_sender_none_estOk {α : Type} (net : Network) (s : DState α)
    (b : List α) (cl : Bool) (hs : s.sender = none)
    (he : net.estOk s.estCount = true) :
    emit net s b cl =
      emitSend net
        { s with
            estCount := s.estCount + 1
            calls := s.calls ++ [TransportCall.est true]
            sender := some () } b cl := by
  unfold emit
  rw [hs]
  simp [he]

theorem flush_fst_of_emit_none {α : Type} (net : Network) (s : DState α)
    (b : List α) (cl : Bool) (h : (emit net s b cl).2 = none) :
    flush net s b cl = emit net s b cl := by
  simp only [flush, h]

theorem flush_fst_of_emit_some {α : Type} (net : Network) (s : DState α)
    (b : List α) (cl : Bool) (e : FlushErr)
    (h : (emit net s b cl).2 = some e) :
    flush net s b cl =
      ({ (emit net s b cl).1 with
          logged := (emit net s b cl).1.logged ++ [e] }, some e) := by
  simp only [flush, h]

theorem flush_allOk {α : Type} (s : DState α) (b : List α) (cl : Bool) :
    (flush Network.allOk s b cl).2 = none ∧
    sentBatches (flush Network.allOk s b cl).1 = sentBatches s ++ [b] ∧
    (flush Network.allOk s b cl).1.batch = s.batch := by
  cases hs : s.sender <;> cases cl <;>
    simp [flush, emit, emitSend, Network.allOk, hs, sentBatches,
          sendCallBatch, List.filterMap_append]

theorem stepRecv_eq {α : Type} (c : ClientState) (net : Network)
    (s : DState α) (e : α) (now : Nat) :
    stepRecv c net s e now =
      if goIntOfUint c.batchMaxSize ≤ (s.batch.length : Int) + 1 then
        { (flush net { s with batch := s.batch ++ [e] }
              (s.batch ++ [e]) false).1 with
            batch := []
            deadline := now + c.batchFlushInterval }
      else { s with batch := s.batch ++ [e] } := by
  unfold stepRecv
  simp [List.length_append]

theorem stepTimer_eq {α : Type} (c : ClientState) (net : Network)
    (s : DState α) (now : Nat) :
    stepTimer c net s now =
      if 0 < s.batch.length then
        { (flush net s s.batch false).1 with
            batch := []
            deadline := now + c.batchFlushInterval }
      else { s with deadline := now + c.batchFlushInterval } := by
  unfold stepTimer
  by_cases h : 0 < s.batch.length <;> simp [h]

theorem goIntOfUint_le (n : Nat) : goIntOfUint n ≤ (n : Int) := by
  unfold goIntOfUint
  split
  · exact Nat.cast_le.mpr (Nat.mod_le n _)
  · have h1 : (n % 2 ^ 64 : Nat) < 2 ^ 64 := Nat.mod_lt _ (by norm_num)
    have h2 : ((n % 2 ^ 64 : Nat) : Int) < 2 ^ 64 := by exact_mod_cast h1
    have h3 : (0 : Int) ≤ (n : Int) := Int.natCast_nonneg n
    omega

theorem goIntOfUint_of_lt (n : Nat) (h : n < 2 ^ 63) :
    goIntOfUint n = (n : Int) := by
  unfold goIntOfUint
  have hm : n % 2 ^ 64 = n := Nat.mod_eq_of_lt (lt_trans h (by norm_num))
  rw [hm, if_pos h]

theorem goIntOfUint_le_succ (m len : Nat) (h : m ≤ len + 1) :
    goIntOfUint m ≤ (len : Int) + 1 := by
  have h2 := le_trans (goIntOfUint_le m) (Nat.cast_le.mpr h)
  push_cast at h2
  exact h2

theorem stepRecv_allOk_sent {α : Type} (c : ClientState) (s : DState α)
    (e : α) (now : Nat) :
    (sentBatches (stepRecv c Network.allOk s e now)).flatten ++
        (stepRecv c Network.allOk s e now).batch =
      (sentBatches s).flatten ++ s.batch ++ [e] := by
  rw [stepRecv_eq]
  by_cases h : goIntOfUint c.batchMaxSize ≤ (s.batch.length : Int) + 1
  · rw [if_pos h]
    have h2 := (flush_allOk { s with batch := s.batch ++ [e] }
      (s.batch ++ [e]) false).2.1
    simp only [sentBatches] at h2 ⊢
    simp [h2, List.append_assoc]
  · rw [if_neg h]
    simp [sentBatches, List.append_assoc]

theorem stepTimer_allOk_sent {α : Type} (c : ClientState) (s : DState α)
    (now : Nat) :
    (sentBatches (stepTimer c Network.allOk s now)).flatten ++
        (stepTimer c Network.allOk s now).batch =
      (sentBatches s).flatten ++ s.batch := by
  rw [stepTimer_eq]
  by_cases h : 0 < s.batch.length
  · rw [if_pos h]
    have h2 := (flush_allOk s s.batch false).2.1
    simp only [sentBatches] at h2 ⊢
    simp [h2, List.append_assoc]
  · rw [if_neg h]
    simp [sentBatches]

theorem stepClosed_allOk {α : Type} (s : DState α) :
    (sentBatches (stepClosed Network.allOk s).1).flatten =
      (sentBatches s).flatten ++ s.batch ∧
    (stepClosed Network.allOk s).2 = none := by
  have h2 := flush_allOk s s.batch true
  unfold stepClosed
  refine ⟨?_, h2.1⟩
  rw [h2.2.1]
  simp

theorem runSender_allOk_inv {α : Type} (c : ClientState)
    (evs : List (SenderEvent α × Nat)) (s : DState α) :
    sentPlusPending (runSender c Network.allOk s evs) =
      (sentBatches s).flatten ++ s.batch ++ recvsOf evs ∧
    (∀ p, runSender c Network.allOk s evs = Sum.inr p → p.2 = none) := by
  induction evs generalizing s with
  | nil =>
      refine ⟨by simp [runSender, sentPlusPending, recvsOf], ?_⟩
      intro p h
      cases h
  | cons ev rest ih =>
      obtain ⟨ev, now⟩ := ev
      cases ev with
      | recv e =>
          refine ⟨?_, ?_⟩
          · show sentPlusPending
              (runSender c Network.allOk (stepRecv c Network.allOk s e now) rest) = _
            rw [(ih _).1]
            rw [show recvsOf (((SenderEvent.recv e : SenderEvent α), now) :: rest) =
                  e :: recvsOf rest from rfl]
            have h := stepRecv_allOk_sent c s e now
            calc (sentBatches (stepRecv c Network.allOk s e now)).flatten ++
                    (stepRecv c Network.allOk s e now).batch ++ recvsOf rest
                = ((sentBatches s).flatten ++ s.batch ++ [e]) ++ recvsOf rest := by
                  rw [h]
              _ = (sentBatches s).flatten ++ s.batch ++ (e :: recvsOf rest) := by
                  simp [List.append_assoc]
          · intro p h
            exact (ih _).2 p h
      | timerFire =>
          refine ⟨?_, ?_⟩
          · show sentPlusPending
              (runSender c Network.allOk (stepTimer c Network.allOk s now) rest) = _
            rw [(ih _).1]
            rw [show recvsOf (((SenderEvent.timerFire : SenderEvent α), now) :: rest) =
                  recvsOf rest from rfl]
            rw [stepTimer_allOk_sent c s now]
          · intro p h
            exact (ih _).2 p h
      | closedChan =>
          refine ⟨?_, ?_⟩
          · show sentPlusPending
              (Sum.inr (stepClosed Network.allOk s) :
                Sum (DState α) (DState α × Option FlushErr)) = _
            rw [show recvsOf (((SenderEvent.closedChan : SenderEvent α), now) :: rest) =
                  [] from rfl]
            simp [sentPlusPending, (stepClosed_allOk s).1]
          · intro p h
            cases h
            exact (stepClosed_allOk s).2

/-- Claim C1: in a failure-free execution, the concatenation of all
batches handed to `Send`, in send order, equals the sequence of records
accepted into the queue, in acceptance order: the dispatcher neither
reorders, drops nor duplicates a record between dequeue and send
(while the loop still runs, the records not yet sent are exactly the
pending buffer, in order; once the end-of-stream marker is processed,
everything accepted has been sent, and the drain reported no error). -/
theorem dispatcher_preserves_order {α : Type} (c : ClientState)
    (evs : List (SenderEvent α × Nat)) :
    sentPlusPending (runSender c Network.allOk (initDState α c) evs) =
      recvsOf evs ∧
    (∀ p : DState α × Option FlushErr,
      runSender c Network.allOk (initDState α c) evs = Sum.inr p →
      (sentBatches p.1).flatten = recvsOf evs ∧ p.2 = none) := by
  have h := runSender_allOk_inv c evs (initDState α c)
  have hinit : sentBatches (initDState α c) = [] := rfl
  constructor
  · rw [h.1, hinit]
    simp [initDState]
  · intro p hp
    obtain ⟨ps, perr⟩ := p
    refine ⟨?_, h.2 _ hp⟩
    have h1 := h.1
    rw [hp] at h1
    have h2 : sentPlusPending
        (Sum.inr (ps, perr) : Sum (DState α) (DState α × Option FlushErr)) =
        (sentBatches ps).flatten := rfl
    rw [h2, hinit] at h1
    simpa [initDState] using h1

/-- Witness for C1: with batch max 3, five records then close, the
batches sent concatenate back to the five records in order. -/
theorem dispatcher_preserves_order_witness :
    (sentBatches (senderFinalState
        (runSender cfgW Network.allOk (initDState Nat cfgW) evsW))).flatten =
      recvsOf evsW :=
  ((dispatcher_preserves_order cfgW evsW).2
    (senderFinalState (runSender cfgW Network.allOk (initDState Nat cfgW) evsW),
      none)
    (by decide)).1

theorem runSender_allRecv_small {α : Type} (c : ClientState) (net : Network)
    (evs : List (SenderEvent α × Nat)) (s : DState α)
    (hw : c.batchMaxSize < 2 ^ 63)
    (h1 : allRecvEvents evs = true)
    (h2 : s.batch.length + evs.length < c.batchMaxSize) :
    runSender c net s evs = Sum.inl { s with batch := s.batch ++ recvsOf evs } := by
  induction evs generalizing s with
  | nil => simp [runSender, recvsOf]
  | cons ev rest ih =>
      obtain ⟨ev, now⟩ := ev
      cases ev with
      | recv e =>
          have hrest : allRecvEvents rest = true := by
            simpa [allRecvEvents] using h1
          have hno : ¬ goIntOfUint c.batchMaxSize ≤ (s.batch.length : Int) + 1 := by
            rw [goIntOfUint_of_lt _ hw]
            simp only [List.length_cons] at h2
            intro hc
            have hn : c.batchMaxSize ≤ s.batch.length + 1 := by exact_mod_cast hc
            omega
          show runSender c net (stepRecv c net s e now) rest = _
          rw [stepRecv_eq, if_neg hno]
          rw [ih _ hrest (by simp only [List.length_cons] at h2; simp; omega)]
          simp [recvsOf, List.append_assoc]
      | timerFire => simp [allRecvEvents] at h1
      | closedChan => simp [allRecvEvents] at h1

/-- Claim C2, counterexample: configure the batch maximum to 2^63 and
submit one record with no timer fire.  The record count, 1, is below
the configured maximum, yet the dispatcher sends: the source compares
`len(batch) >= int(c.batchMaxSize)` and the uint-to-int conversion
wraps 2^63 to a negative threshold, so the size guard holds for every
record and the single record is flushed at once. -/
theorem batch_max_wrap_sends_below_max :
    1 < (newIngressClient
        [IngressOption.withBatchMaxSize (2 ^ 63)]).batchMaxSize ∧
    sentBatches (senderFinalState
      (runSender (newIngressClient [IngressOption.withBatchMaxSize (2 ^ 63)])
        Network.allOk
        (initDState Nat
          (newIngressClient [IngressOption.withBatchMaxSize (2 ^ 63)]))
        [(SenderEvent.recv 7, 0)])) = [[7]] := by
  exact ⟨by decide, by decide⟩

/-- Claim C2 (amended): provided the configured batch maximum is below
2^63 — so that the source's `int(c.batchMaxSize)` does not wrap
negative — while fewer records than the batch maximum have arrived and
the timer has not fired, the dispatcher makes no transport call at
all: the records just accumulate in the buffer; a single record below
threshold leaves the buffer as is plus the record, and a timer fire
with an empty buffer only resets the timer, flushing nothing.  So a
send happens only when the buffered count reaches the batch maximum
(as the signed comparison computes it) or the timer fires on a
non-empty buffer. -/
theorem no_send_below_batch_max {α : Type} (c : ClientState) (net : Network)
    (evs : List (SenderEvent α × Nat))
    (hw : c.batchMaxSize < 2 ^ 63)
    (h1 : allRecvEvents evs = true) (h2 : evs.length < c.batchMaxSize) :
    runSender c net (initDState α c) evs =
      Sum.inl { initDState α c with batch := recvsOf evs } ∧
    (∀ (s : DState α) (e : α) (now : Nat),
      ¬ c.batchMaxSize ≤ s.batch.length + 1 →
      stepRecv c net s e now = { s with batch := s.batch ++ [e] }) ∧
    (∀ (s : DState α) (now : Nat), s.batch = [] →
      stepTimer c net s now = { s with deadline := now + c.batchFlushInterval }) := by
  refine ⟨?_, ?_, ?_⟩
  · have h := runSender_allRecv_small c net evs (initDState α c) hw h1
      (by simpa [initDState] using h2)
    simpa [initDState] using h
  · intro s e now h
    have hno : ¬ goIntOfUint c.batchMaxSize ≤ (s.batch.length : Int) + 1 := by
      rw [goIntOfUint_of_lt _ hw]
      intro hc
      exact h (by exact_mod_cast hc)
    rw [stepRecv_eq, if_neg hno]
  · intro s now h
    rw [stepTimer_eq, if_neg (by simp [h])]

/-- Witness for C2: two records under a batch max of three produce no
transport call — the loop is still running with both records
buffered. -/
theorem no_send_below_batch_max_witness :
    runSender cfgW Network.allOk (initDState Nat cfgW)
        [(SenderEvent.recv 1, 0), (SenderEvent.recv 2, 1)] =
      Sum.inl { initDState Nat cfgW with
        batch := recvsOf [(SenderEvent.recv 1, 0), (SenderEvent.recv 2, 1)] } :=
  (no_send_below_batch_max cfgW Network.allOk _ (by decide) (by decide)
    (by decide)).1

theorem validEvents_next_timer {α : Type} (c : ClientState) (net : Network)
    (mid : List (SenderEvent α × Nat)) :
    ∀ (s : DState α) (tmin t t' : Nat) (post : List (SenderEvent α × Nat)),
    allRecvEvents mid = true →
    t ≤ tmin →
    t + c.batchFlushInterval ≤ s.deadline →
    validEvents c net s tmin (mid ++ (SenderEvent.timerFire, t') :: post) = true →
    t + c.batchFlushInterval ≤ t' := by
  induction mid with
  | nil =>
      intro s tmin t t' post _ httmin hdl hv
      simp only [List.nil_append, validEvents, Bool.and_eq_true,
        decide_eq_true_eq] at hv
      exact le_trans hdl hv.2.1
  | cons ev rest ih =>
      intro s tmin t t' post hall httmin hdl hv
      obtain ⟨ev, now⟩ := ev
      cases ev with
      | recv e =>
          have hrest : allRecvEvents rest = true := by
            simpa [allRecvEvents] using hall
          rw [List.cons_append] at hv
          simp only [validEvents, Bool.and_eq_true, decide_eq_true_eq] at hv
          refine ih (stepRecv c net s e now) now t t' post hrest
            (le_trans httmin hv.1) ?_ hv.2
          rw [stepRecv_eq]
          by_cases hb : goIntOfUint c.batchMaxSize ≤ (s.batch.length : Int) + 1
          · rw [if_pos hb]
            have : t ≤ now := le_trans httmin hv.1
            simp
            omega
          · rw [if_neg hb]
            simpa using hdl
      | timerFire => simp [allRecvEvents] at hall
      | closedChan => simp [allRecvEvents] at hall

/-- Claim C3: every flush restarts the timer to a full configured
interval measured from the flush moment — the size-triggered branch
stops and drains the timer before resetting, so no stale fire
survives — and therefore, after a size-triggered flush at time `t`,
the next timer fire a valid schedule can deliver is at `t` plus the
full interval or later; likewise two consecutive timer fires are at
least a full interval apart (no double fire). -/
theorem timer_reset_discipline {α : Type} (c : ClientState) (net : Network) :
    (∀ (s : DState α) (e : α) (now : Nat),
      c.batchMaxSize ≤ s.batch.length + 1 →
      (stepRecv c net s e now).deadline = now + c.batchFlushInterval) ∧
    (∀ (s : DState α) (now : Nat),
      (stepTimer c net s now).deadline = now + c.batchFlushInterval) ∧
    (∀ (s : DState α) (e : α) (t t' : Nat)
        (mid post : List (SenderEvent α × Nat)),
      c.batchMaxSize ≤ s.batch.length + 1 →
      allRecvEvents mid = true →
      validEvents c net (stepRecv c net s e t) t
        (mid ++ (SenderEvent.timerFire, t') :: post) = true →
      t + c.batchFlushInterval ≤ t') ∧
    (∀ (s : DState α) (tmin t1 t2 : Nat)
        (mid post : List (SenderEvent α × Nat)),
      allRecvEvents mid = true →
      validEvents c net s tmin
        ((SenderEvent.timerFire, t1) ::
          (mid ++ (SenderEvent.timerFire, t2) :: post)) = true →
      t1 + c.batchFlushInterval ≤ t2) := by
  have hrecv : ∀ (s : DState α) (e : α) (now : Nat),
      c.batchMaxSize ≤ s.batch.length + 1 →
      (stepRecv c net s e now).deadline = now + c.batchFlushInterval := by
    intro s e now h
    rw [stepRecv_eq, if_pos (goIntOfUint_le_succ _ _ h)]
  have htimer : ∀ (s : DState α) (now : Nat),
      (stepTimer c net s now).deadline = now + c.batchFlushInterval := by
    intro s now
    rw [stepTimer_eq]
    by_cases h : 0 < s.batch.length <;> simp [h]
  refine ⟨hrecv, htimer, ?_, ?_⟩
  · intro s e t t' mid post hb hall hv
    exact validEvents_next_timer c net mid (stepRecv c net s e t) t t t' post
      hall (le_refl t) (le_of_eq (hrecv s e t hb).symm) hv
  · intro s tmin t1 t2 mid post hall hv
    simp only [validEvents, Bool.and_eq_true, decide_eq_true_eq] at hv
    exact validEvents_next_timer c net mid (stepTimer c net s t1) t1 t1 t2 post
      hall (le_refl t1) (le_of_eq (htimer s t1).symm) hv.2.2

/-- Witness for C3: with batch max 3 and interval 10, a size-triggered
flush at time 5 admits the next timer fire no earlier than 15 in a
valid schedule, and 15 itself is valid. -/
theorem timer_reset_discipline_witness :
    validEvents cfgW Network.allOk
        (stepRecv cfgW Network.allOk
          { initDState Nat cfgW with batch := [1, 2] } 3 5) 5
        ([] ++ (SenderEvent.timerFire, 15) :: []) = true ∧
    5 + cfgW.batchFlushInterval ≤ 15 :=
  ⟨by decide,
   (timer_reset_discipline cfgW Network.allOk).2.2.1
     { initDState Nat cfgW with batch := [1, 2] } 3 5 15 [] []
     (by decide) (by decide) (by decide)⟩

theorem emitSend_sentBatches {α : Type} (net : Network) (s : DState α)
    (b : List α) (cl : Bool) :
    sentBatches (emitSend net s b cl).1 = sentBatches s ++ [b] := by
  by_cases h : net.sendOk s.sendCount <;> cases cl <;>
    simp [emitSend, h, sentBatches, sendCallBatch, List.filterMap_append]

theorem flush_sentBatches_cases {α : Type} (net : Network) (s : DState α)
    (b : List α) (cl : Bool) :
    sentBatches (flush net s b cl).1 = sentBatches s ++ [b] ∨
    sentBatches (flush net s b cl).1 = sentBatches s := by
  have hcore : sentBatches (emit net s b cl).1 = sentBatches s ++ [b] ∨
      sentBatches (emit net s b cl).1 = sentBatches s := by
    cases hs : s.sender with
    | some u =>
        cases u
        rw [emit_sender_some net s b cl hs]
        exact Or.inl (emitSend_sentBatches net s b cl)
    | none =>
        by_cases hest : net.estOk s.estCount
        · rw [emit_sender_none_estOk net s b cl hs hest]
          left
          rw [emitSend_sentBatches]
          simp [sentBatches, sendCallBatch, List.filterMap_append]
        · rw [emit_sender_none_estFail net s b cl hs
            (Bool.not_eq_true _ ▸ hest)]
          right
          simp [sentBatches, sendCallBatch]
  cases he : (emit net s b cl).2 with
  | none => rw [flush_fst_of_emit_none net s b cl he]; exact hcore
  | some e =>
      rw [flush_fst_of_emit_some net s b cl e he]
      simpa [sentBatches] using hcore

theorem stepRecv_sent_sub {α : Type} (c : ClientState) (net : Network)
    (s : DState α) (e : α) (now : Nat) :
    List.Sublist
      ((sentBatches (stepRecv c net s e now)).flatten ++
        (stepRecv c net s e now).batch)
      ((sentBatches s).flatten ++ s.batch ++ [e]) := by
  rw [stepRecv_eq]
  by_cases h : goIntOfUint c.batchMaxSize ≤ (s.batch.length : Int) + 1
  · rw [if_pos h]
    rcases flush_sentBatches_cases net { s with batch := s.batch ++ [e] }
        (s.batch ++ [e]) false with hf | hf <;>
      simp only [sentBatches] at hf ⊢
    · rw [hf]
      simp only [List.flatten_append, List.flatten_cons, List.flatten_nil,
        List.append_nil, List.append_assoc]
      exact List.Sublist.refl _
    · rw [hf]
      simp only [List.append_nil, List.append_assoc]
      exact List.sublist_append_left _ _
  · rw [if_neg h]
    simp [sentBatches, List.append_assoc]

theorem stepTimer_sent_sub {α : Type} (c : ClientState) (net : Network)
    (s : DState α) (now : Nat) :
    List.Sublist
      ((sentBatches (stepTimer c net s now)).flatten ++
        (stepTimer c net s now).batch)
      ((sentBatches s).flatten ++ s.batch) := by
  rw [stepTimer_eq]
  by_cases h : 0 < s.batch.length
  · rw [if_pos h]
    rcases flush_sentBatches_cases net s s.batch false with hf | hf <;>
      simp only [sentBatches] at hf ⊢
    · rw [hf]
      simp only [List.flatten_append, List.flatten_cons, List.flatten_nil,
        List.append_nil]
      exact List.Sublist.refl _
    · rw [hf]
      simp only [List.append_nil]
      exact List.sublist_append_left _ _
  · rw [if_neg h]
    simp only [sentBatches]
    exact List.Sublist.refl _

theorem stepClosed_sent_sub {α : Type} (net : Network) (s : DState α) :
    List.Sublist ((sentBatches (stepClosed net s).1).flatten)
      ((sentBatches s).flatten ++ s.batch) := by
  unfold stepClosed
  rcases flush_sentBatches_cases net s s.batch true with hf | hf
  · rw [hf]
    simp only [List.flatten_append, List.flatten_cons, List.flatten_nil,
      List.append_nil]
    exact List.Sublist.refl _
  · rw [hf]
    exact List.sublist_append_left _ _

theorem runSender_sent_sublist {α : Type} (c : ClientState) (net : Network)
    (evs : List (SenderEvent α × Nat)) (s : DState α) :
    List.Sublist (sentPlusPending (runSender c net s evs))
      ((sentBatches s).flatten ++ s.batch ++ recvsOf evs) := by
  induction evs generalizing s with
  | nil =>
      simp only [runSender, sentPlusPending, recvsOf, List.append_nil]
      exact List.Sublist.refl _
  | cons ev rest ih =>
      obtain ⟨ev, now⟩ := ev
      cases ev with
      | recv e =>
          show List.Sublist
            (sentPlusPending (runSender c net (stepRecv c net s e now) rest)) _
          refine (ih _).trans ?_
          have h2 := (stepRecv_sent_sub c net s e now).append_right (recvsOf rest)
          simpa [recvsOf, List.append_assoc] using h2
      | timerFire =>
          show List.Sublist
            (sentPlusPending (runSender c net (stepTimer c net s now) rest)) _
          refine (ih _).trans ?_
          have h2 := (stepTimer_sent_sub c net s now).append_right (recvsOf rest)
          simpa [recvsOf, List.append_assoc] using h2
      | closedChan =>
          show List.Sublist
            (sentPlusPending (Sum.inr (stepClosed net s) :
              Sum (DState α) (DState α × Option FlushErr))) _
          have h2 := stepClosed_sent_sub net s
          rcases hsc : stepClosed net s with ⟨s', err⟩
          rw [hsc] at h2
          simpa [sentPlusPending, recvsOf] using h2

/-- Claim C4: a failed `Send` makes `emit` nil the stream handle at
once and report the send error; the dispatcher then clears the batch
regardless of the flush outcome, so the failed contents are abandoned —
over any schedule and any transport behaviour, each accepted record
appears in at most one `Send` call, in order (no re-queue, no retry);
and a flush that starts with no handle makes exactly one establishment
call, placed before its single `Send`. -/
theorem send_failure_drops_and_reestablishes {α : Type} (c : ClientState)
    (net : Network) :
    (∀ (s : DState α) (b : List α) (cl : Bool),
      net.sendOk s.sendCount = false → s.sender = some () →
      (emit net s b cl).1.sender = none ∧
      (emit net s b cl).2 = some FlushErr.sendErr) ∧
    (∀ (s : DState α) (e : α) (now : Nat),
      c.batchMaxSize ≤ s.batch.length + 1 →
      (stepRecv c net s e now).batch = []) ∧
    (∀ evs : List (SenderEvent α × Nat),
      List.Sublist (sentPlusPending (runSender c net (initDState α c) evs))
        (recvsOf evs)) ∧
    (∀ (s : DState α) (b : List α),
      s.sender = none → net.estOk s.estCount = true →
      (emit net s b false).1.calls =
        s.calls ++ [TransportCall.est true,
                    TransportCall.send b (net.sendOk s.sendCount)] ∧
      (emit net s b false).1.estCount = s.estCount + 1) := by
  refine ⟨?_, ?_, ?_, ?_⟩
  · intro s b cl hsend hs
    rw [emit_sender_some net s b cl hs, emitSend_sendFail net s b cl hsend]
    exact ⟨rfl, rfl⟩
  · intro s e now h
    rw [stepRecv_eq, if_pos (goIntOfUint_le_succ _ _ h)]
  · intro evs
    have h := runSender_sent_sublist c net evs (initDState α c)
    simpa [initDState, sentBatches] using h
  · intro s b hs hest
    rw [emit_sender_none_estOk net s b false hs hest]
    by_cases hsend : net.sendOk s.sendCount
    · rw [emitSend_sendOk_noClose]
      · simp [hsend]
      · simpa using hsend
    · rw [emitSend_sendFail]
      · simp [Bool.not_eq_true _ ▸ hsend]
      · simpa using hsend
  
/-- Witness for C4: with a transport whose sends fail, a send on a live
handle nils the handle and reports the send error. -/
theorem send_failure_drops_and_reestablishes_witness :
    (emit netSendFail { initDState Nat cfgW with sender := some () }
        [1, 2] false).1.sender = none ∧
    (emit netSendFail { initDState Nat cfgW with sender := some () }
        [1, 2] false).2 = some FlushErr.sendErr :=
  (send_failure_drops_and_reestablishes cfgW netSendFail).1
    { initDState Nat cfgW with sender := some () } [1, 2] false rfl rfl

theorem flush_snd {α : Type} (net : Network) (s : DState α) (b : List α)
    (cl : Bool) : (flush net s b cl).2 = (emit net s b cl).2 := by
  cases he : (emit net s b cl).2 with
  | none => rw [flush_fst_of_emit_none net s b cl he, he]
  | some e => rw [flush_fst_of_emit_some net s b cl e he]

theorem emit_logged {α : Type} (net : Network) (s : DState α) (b : List α)
    (cl : Bool) : (emit net s b cl).1.logged = s.logged := by
  cases hs : s.sender with
  | some u =>
      cases u
      rw [emit_sender_some net s b cl hs]
      by_cases hsend : net.sendOk s.sendCount <;> cases cl <;>
        simp [emitSend, hsend]
  | none =>
      by_cases hest : net.estOk s.estCount
      · rw [emit_sender_none_estOk net s b cl hs hest]
        by_cases hsend : net.sendOk s.sendCount <;> cases cl <;>
          simp [emitSend, hsend]
      · rw [emit_sender_none_estFail net s b cl hs (Bool.not_eq_true _ ▸ hest)]

theorem runSender_isLeft {α : Type} (c : ClientState) (net : Network)
    (evs : List (SenderEvent α × Nat)) (s : DState α) :
    (runSender c net s evs).isLeft = !hasClosedEvent evs := by
  induction evs generalizing s with
  | nil => simp [runSender, hasClosedEvent]
  | cons ev rest ih =>
      obtain ⟨ev, now⟩ := ev
      cases ev with
      | recv e =>
          show (runSender c net (stepRecv c net s e now) rest).isLeft = _
          rw [ih]
          rfl
      | timerFire =>
          show (runSender c net (stepTimer c net s now) rest).isLeft = _
          rw [ih]
          rfl
      | closedChan => rfl

/-- Claim C5: the shutdown outcome received over `closeErrors` is the
final drain's result — success exactly when establishment (if needed),
the send, and the stream close all succeed, and otherwise the last
error hit: in particular when the final send succeeds but the close
fails, the close failure is the reported outcome.  The loop returns a
value only upon the end-of-stream marker: any run that terminates with
an outcome had a close event in its schedule (every other flush error
is swallowed inside the loop). -/
theorem closeSend_returns_drain_outcome {α : Type} (c : ClientState)
    (net : Network) :
    (∀ s : DState α, s.sender = some () →
      closeSendOutcome net s =
        (if net.sendOk s.sendCount then
          (if net.closeOk s.closeCount then none else some FlushErr.closeErr)
         else some FlushErr.sendErr)) ∧
    (∀ s : DState α, s.sender = none →
      closeSendOutcome net s =
        (if net.estOk s.estCount then
          (if net.sendOk s.sendCount then
            (if net.closeOk s.closeCount then none else some FlushErr.closeErr)
           else some FlushErr.sendErr)
         else some FlushErr.estErr)) ∧
    (∀ (s : DState α) (evs : List (SenderEvent α × Nat))
        (p : DState α × Option FlushErr),
      runSender c net s evs = Sum.inr p → hasClosedEvent evs = true) := by
  refine ⟨?_, ?_, ?_⟩
  · intro s hs
    unfold closeSendOutcome stepClosed
    rw [flush_snd, emit_sender_some net s s.batch true hs]
    by_cases hsend : net.sendOk s.sendCount
    · rw [emitSend_sendOk_close net s s.batch hsend, if_pos hsend]
    · rw [emitSend_sendFail net s s.batch true (Bool.not_eq_true _ ▸ hsend),
        if_neg hsend]
  · intro s hs
    unfold closeSendOutcome stepClosed
    rw [flush_snd]
    by_cases hest : net.estOk s.estCount
    · rw [emit_sender_none_estOk net s s.batch true hs hest, if_pos hest]
      by_cases hsend : net.sendOk s.sendCount
      · rw [emitSend_sendOk_close _ _ _ (by simpa using hsend), if_pos hsend]
      · rw [emitSend_sendFail _ _ _ _ (by simpa using hsend), if_neg hsend]
    · rw [emit_sender_none_estFail net s s.batch true hs
        (Bool.not_eq_true _ ▸ hest), if_neg hest]
  · intro s evs p hp
    have h := runSender_isLeft c net evs s
    rw [hp] at h
    simpa using h.symm

/-- Witness for C5: with a live handle, a succeeding send and a failing
stream close, the shutdown outcome is the close failure. -/
theorem closeSend_returns_drain_outcome_witness :
    closeSendOutcome netCloseFail
        { initDState Nat cfgW with sender := some () } =
      some FlushErr.closeErr := by
  have h := (closeSend_returns_drain_outcome cfgW netCloseFail).1
    { initDState Nat cfgW with sender := some () } rfl
  simpa [netCloseFail] using h

/-- Claim C6: on the success path, the end-of-stream step performs
exactly one flush of exactly the pending buffer — whether it is empty
(instantiate with `s.batch = []`: a single `Send` of the empty batch)
or not — followed by exactly one `CloseSend` of the stream, in that
order, and the value handed back to the shutdown caller is produced
only after both calls have completed; with no live handle, a single
establishment precedes them. -/
theorem closeSend_single_flush_and_close {α : Type} (net : Network) :
    (∀ s : DState α, s.sender = some () →
      net.sendOk s.sendCount = true → net.closeOk s.closeCount = true →
      stepClosed net s =
        ({ s with
            sendCount := s.sendCount + 1
            closeCount := s.closeCount + 1
            calls := s.calls ++ [TransportCall.send s.batch true,
                                 TransportCall.closeSend true] }, none)) ∧
    (∀ s : DState α, s.sender = none → net.estOk s.estCount = true →
      net.sendOk s.sendCount = true → net.closeOk s.closeCount = true →
      stepClosed net s =
        ({ s with
            sender := some ()
            estCount := s.estCount + 1
            sendCount := s.sendCount + 1
            closeCount := s.closeCount + 1
            calls := s.calls ++ [TransportCall.est true,
                                 TransportCall.send s.batch true,
                                 TransportCall.closeSend true] }, none)) := by
  constructor
  · intro s hs hsend hclose
    unfold stepClosed
    have he : emit net s s.batch true =
        ({ s with
            sendCount := s.sendCount + 1
            closeCount := s.closeCount + 1
            calls := s.calls ++ [TransportCall.send s.batch true,
                                 TransportCall.closeSend true] }, none) := by
      rw [emit_sender_some net s s.batch true hs,
        emitSend_sendOk_close net s s.batch hsend]
      simp [hclose]
    rw [flush_fst_of_emit_none net s s.batch true (by rw [he])]
    exact he
  · intro s hs hest hsend hclose
    unfold stepClosed
    have he : emit net s s.batch true =
        ({ s with
            sender := some ()
            estCount := s.estCount + 1
            sendCount := s.sendCount + 1
            closeCount := s.closeCount + 1
            calls := s.calls ++ [TransportCall.est true,
                                 TransportCall.send s.batch true,
                                 TransportCall.closeSend true] }, none) := by
      rw [emit_sender_none_estOk net s s.batch true hs hest,
        emitSend_sendOk_close _ _ _ (by simpa using hsend)]
      simp [hclose]
    rw [flush_fst_of_emit_none net s s.batch true (by rw [he])]
    exact he

/-- Witness for C6: shutting down a fresh-but-established client with
an empty buffer makes exactly one empty `Send` then one `CloseSend`,
and reports success. -/
theorem closeSend_single_flush_and_close_witness :
    (stepClosed Network.allOk
        { initDState Nat cfgW with sender := some () }).1.calls =
      [TransportCall.send [] true, TransportCall.closeSend true] ∧
    (stepClosed Network.allOk
        { initDState Nat cfgW with sender := some () }).2 = none := by
  have h := (closeSend_single_flush_and_close Network.allOk).1
    { initDState Nat cfgW with sender := some () } rfl rfl rfl
  rw [h]
  exact ⟨rfl, rfl⟩

/-- Claim C7: the loop survives any transport behaviour — its result is
still "running" exactly when the schedule contains no end-of-stream
marker, for every oracle, so no establishment or send failure ever
terminates it — and whenever a flush produces an error, that error is
appended to the logger sink's record and the flush returns normally. -/
theorem flush_errors_logged_loop_survives {α : Type} (c : ClientState)
    (net : Network) :
    (∀ (s : DState α) (evs : List (SenderEvent α × Nat)),
      (runSender c net s evs).isLeft = !hasClosedEvent evs) ∧
    (∀ (s : DState α) (b : List α) (cl : Bool) (e : FlushErr),
      (flush net s b cl).2 = some e →
      (flush net s b cl).1.logged = s.logged ++ [e]) := by
  refine ⟨fun s evs => runSender_isLeft c net evs s, ?_⟩
  intro s b cl e h
  rw [flush_snd] at h
  rw [flush_fst_of_emit_some net s b cl e h]
  simp [emit_logged]

/-- Witness for C7: a failing send during a normal flush lands its
error in the logger's record. -/
theorem flush_errors_logged_loop_survives_witness :
    (flush netSendFail { initDState Nat cfgW with sender := some () }
        [5] false).1.logged =
      ({ initDState Nat cfgW with sender := some () } : DState Nat).logged ++
        [FlushErr.sendErr] :=
  (flush_errors_logged_loop_survives cfgW netSendFail).2 _ [5] false
    FlushErr.sendErr (by decide)
